import Mathlib

/-!
Verification of `aider/linter.py`: a shallow embedding of the linter module
(parse-tree error scanner, context renderer wrapper, compile fallback,
dispatcher) together with theorems about the claims of the specification.

External collaborators (tree-sitter parser, `grep_ast.TreeContext`,
`subprocess`, the file system, `filename_to_lang`, `os.path.relpath`) are
modelled as explicit function parameters collected in an `Env` structure;
the module's own code is translated function by function.
-/

namespace Aider

set_option maxRecDepth 8192

/-- A tree-sitter syntax-tree node as used by `traverse_tree`: a type tag,
the `is_missing` flag, the row of `start_point`, and the ordered children.
Rows are Python ints, modelled as `Int`. -/
inductive Node where
  | mk (ty : String) (missing : Bool) (startRow : Int) (children : List Node)

/-- `node.type` -/
def Node.ty : Node → String
  | .mk t _ _ _ => t

/-- `node.is_missing` -/
def Node.missing : Node → Bool
  | .mk _ m _ _ => m

/-- `node.start_point[0]` -/
def Node.startRow : Node → Int
  | .mk _ _ r _ => r

/-- `node.children` -/
def Node.children : Node → List Node
  | .mk _ _ _ cs => cs

mutual
/-- `traverse_tree(node)` from linter.py: collect the starting row of every
node whose type is `"ERROR"` or whose `is_missing` flag is set, recursing
into all children unconditionally. -/
def traverse_tree : Node → List Int
  | .mk ty missing row children =>
      (if ty = "ERROR" ∨ missing = true then [row] else []) ++ traverse_forest children

/-- The `for child in node.children: errors += traverse_tree(child)` loop. -/
def traverse_forest : List Node → List Int
  | [] => []
  | c :: cs => traverse_tree c ++ traverse_forest cs
end

mutual
/-- All nodes of a tree, in depth-first order (the node itself first). -/
def allNodes : Node → List Node
  | .mk ty missing row children => .mk ty missing row children :: allForest children

/-- All nodes of a forest. -/
def allForest : List Node → List Node
  | [] => []
  | c :: cs => allNodes c ++ allForest cs
end

/-- A handler registered in `Linter.languages`: either an external-command
template (a string) or a callable strategy (Python stores both in one dict). -/
inductive Handler where
  | external (template : String)
  | callable (f : String → String → String → Option String)

/-- The named options `tree_context` passes to the `TreeContext` constructor. -/
structure TreeContextCfg where
  color : Bool
  line_number : Bool
  child_context : Bool
  last_line : Bool
  margin : Int
  mark_lois : Bool
  loi_pad : Int
  show_top_of_file_parent_scope : Bool

/-- The fixed configuration used by `tree_context` in linter.py. -/
def treeContextCfg : TreeContextCfg :=
  ⟨false, true, false, false, 0, true, 5, false⟩

/-- The external collaborators of linter.py, modelled as explicit functions:
`filename_to_lang`, `Path(...).read_text`, `subprocess.check_output`
(taking the cwd and the argument vector, returning exit status and captured
output), `get_parser(lang).parse`, `os.path.relpath`, and the configured
`TreeContext` object's `add_lines_of_interest`/`add_context`/`format`
pipeline (a function of the config, file name, code, and lines of interest). -/
structure Env where
  filename_to_lang : String → Option String
  read_text : String → String
  exec : Option String → List (List Char) → Int × String
  parse : String → String → Node
  relpath : String → String → String
  tc_format : TreeContextCfg → String → String → List Int → String

/-- The `Linter` object's state. -/
structure Linter where
  encoding : String
  root : Option String
  languages : List (String × Handler)

/-- `Linter.__init__`: the registry is pre-populated with the single entry
`python="pre-commit run --files"` (the `python=self.py_lint` entry is
commented out in the source). -/
def Linter.init (encoding : String) (root : Option String) : Linter :=
  ⟨encoding, root, [("python", Handler.external "pre-commit run --files")]⟩

/-- A `Linter` built with the default constructor arguments. -/
def defaultLinter : Linter := Linter.init "utf-8" none

/-- Python `dict.get`, over the association-list model of the registry. -/
def lookupLang (d : List (String × Handler)) (k : String) : Option Handler :=
  (d.find? (fun p => p.1 = k)).map (fun p => p.2)

/-- Python dict assignment `self.languages[lang] = cmd`. -/
def dictSet (d : List (String × Handler)) (k : String) (v : Handler) :
    List (String × Handler) :=
  if d.any (fun p => p.1 = k) then d.map (fun p => if p.1 = k then (k, v) else p)
  else d ++ [(k, v)]

/-- `Linter.set_linter`. -/
def Linter.set_linter (l : Linter) (lang : String) (cmd : Handler) : Linter :=
  ⟨l.encoding, l.root, dictSet l.languages lang cmd⟩

/-- Worker for Python's no-argument `str.split()`: split on runs of
whitespace, producing no empty tokens. `acc` is the current token reversed. -/
def pySplitAux : List Char → List Char → List (List Char)
  | [], acc => if acc.isEmpty then [] else [acc.reverse]
  | c :: cs, acc =>
    if c.isWhitespace then
      if acc.isEmpty then pySplitAux cs [] else acc.reverse :: pySplitAux cs []
    else pySplitAux cs (c :: acc)

/-- Python `str.split()` with no arguments. -/
def pySplit (s : List Char) : List (List Char) := pySplitAux s []

/-- The argument vector built by `Linter.run_cmd`:
`cmd += " " + rel_fname; cmd = cmd.split()`. -/
def run_cmd_argv (cmd rel_fname : List Char) : List (List Char) :=
  pySplit (cmd ++ ' ' :: rel_fname)

/-- Python `range(a, b)` over ints, as the list `[a, a+1, ..., b-1]`. -/
def pyRange (a b : Int) : List Int :=
  (List.range (b - a).toNat).map (fun i : Nat => a + (i : Int))

/-- `list(range(err.lineno - 1, err.end_lineno))` from `lint_python_compile`. -/
def compile_line_numbers (lineno end_lineno : Int) : List Int :=
  pyRange (lineno - 1) end_lineno

/-- The literal header `run_cmd` prepends to a failing command's output
(the source's string contains the malformed placeholder verbatim). -/
def runCmdHeader : String :=
  "# Running: \x7bcmd]\nIf the output below indicates errors or problems, fix them.\nBut if the command fixed all the issues itself, don't take further action.\n\n"

/-- `tree_context(fname, code, line_nums)`: deduplicate the line numbers
(`set(line_nums)`), choose singular or plural wording, and emit the header,
the file name with a colon, and the external renderer's excerpt. -/
def tree_context (env : Env) (fname code : String) (line_nums : List Int) : String :=
  let lois := line_nums.dedup
  let s := if 1 < lois.length then "s" else ""
  "# Fix the error" ++ s ++ ", see relevant line" ++ s ++ " below marked with █.\n\n"
    ++ (fname ++ ":\n")
    ++ env.tc_format treeContextCfg fname code lois

/-- `basic_lint(fname, code)`: resolve the language, parse, scan the tree,
and render the findings, or return nothing when the scan is empty. -/
def basic_lint (env : Env) (fname code : String) : Option String :=
  match env.filename_to_lang fname with
  | none => none
  | some lang =>
    let tree := env.parse lang code
    let errors := traverse_tree tree
    if errors.isEmpty then none else some (tree_context env fname code errors)

/-- `Linter.get_rel_fname` (`if self.root:` is Python truthiness, so an
empty-string root behaves like an absent one). -/
def Linter.get_rel_fname (env : Env) (l : Linter) (fname : String) : String :=
  match l.root with
  | none => fname
  | some r => if r = "" then fname else env.relpath fname r

/-- `Linter.run_cmd`: build the argument vector, run it; a zero exit status
returns nothing, a non-zero one returns the header plus the captured output. -/
def Linter.run_cmd (env : Env) (l : Linter) (cmd rel_fname : String) : Option String :=
  let argv := run_cmd_argv cmd.data rel_fname.data
  let r := env.exec l.root argv
  if r.1 = 0 then none else some (runCmdHeader ++ r.2)

/-- `Linter.lint`: resolve the language, read the file, and dispatch on the
registered handler; Python's `if cmd:` makes an empty-string template fall
through to `basic_lint`, like a missing entry. -/
def Linter.lint (env : Env) (l : Linter) (fname : String) : Option String :=
  match env.filename_to_lang fname with
  | none => none
  | some lang =>
    let rel_fname := Linter.get_rel_fname env l fname
    let code := env.read_text fname
    match lookupLang l.languages lang with
    | some (Handler.callable f) => f fname rel_fname code
    | some (Handler.external cmd) =>
        if cmd = "" then basic_lint env rel_fname code
        else Linter.run_cmd env l cmd rel_fname
    | none => basic_lint env rel_fname code

/-- The outcome of `compile(code, fname, "exec")`: `none` on success, or the
raised exception. An exception is modelled by the attributes the handler
reads: `lineno` and `end_lineno` (absent, i.e. `none`, for non-SyntaxError
exceptions such as `ValueError`, or when the attribute holds Python `None`),
and the lines `traceback.format_exception` produces for it. -/
structure PyExn where
  lineno : Option Int
  end_lineno : Option Int
  tb_lines : List String

/-- An uncaught Python fault propagating out of a function. -/
inductive PyFault where
  | raised

/-- The sentinel the traceback filter searches for (assembled from two parts
in the source so the search never matches its own line). -/
def tbTarget : String := "# USE TRACEBACK" ++ " BELOW HERE"

/-- Python `target in tb_lines[i]`. -/
def tbContains (line : String) : Bool := decide (tbTarget.data <:+: line.data)

/-- The traceback surgery of `lint_python_compile`: find the first line
holding the sentinel (index 0 when absent) and keep
`tb_lines[:1] + tb_lines[last_file_i + 1:]`. -/
def filterTb (tb_lines : List String) : List String :=
  let last_file_i := match tb_lines.findIdx? tbContains with
    | some i => i
    | none => 0
  tb_lines.take 1 ++ tb_lines.drop (last_file_i + 1)

/-- `lint_python_compile(fname, code)`. The compile step's outcome is the
`compile_result` argument. On success: nothing. On an exception: read
`err.lineno` and `err.end_lineno` — if either attribute is missing the
attribute access raises and the fault propagates (`Except.error`) —
then build the filtered traceback plus the rendered context. -/
def lint_python_compile (env : Env) (compile_result : Option PyExn)
    (fname code : String) : Except PyFault (Option String) :=
  match compile_result with
  | none => Except.ok none
  | some err =>
    match err.lineno, err.end_lineno with
    | some l, some e =>
      let line_numbers := compile_line_numbers l e
      let tb_lines := filterTb err.tb_lines
      Except.ok (some (String.join tb_lines ++ "\n" ++ tree_context env fname code line_numbers))
    | _, _ => Except.error PyFault.raised

/-- Python truthiness of an optional string (`None` and `""` are falsy). -/
def pyTruthy : Option String → Bool
  | none => false
  | some s => s != ""

/-- `Linter.py_lint`: run `basic_lint` first and return its report when
truthy; otherwise fall back to `lint_python_compile`. -/
def Linter.py_lint (env : Env) (compile_result : Option PyExn)
    (fname rel_fname code : String) : Except PyFault (Option String) :=
  let res := basic_lint env rel_fname code
  if pyTruthy res then Except.ok res
  else lint_python_compile env compile_result fname code

/-- A concrete error-free tree, standing for a clean parse result. -/
def demoNode : Node := Node.mk "module" false 0 []

/-- A concrete tree whose root is an ERROR node. -/
def demoErrNode : Node := Node.mk "ERROR" false 0 []

/-- A concrete environment: every file resolves to "python", parsing yields
the clean `demoNode`, and the external command exits with status 1. -/
def demoEnv : Env :=
  ⟨fun _ => some "python", fun _ => "x = 1\n", fun _ _ => (1, "boom"),
   fun _ _ => demoNode, fun f _ => f, fun _ _ _ _ => "<excerpt>"⟩

/-- A concrete environment whose parse result contains an ERROR node and
whose external command exits with status 0. -/
def demoErrEnv : Env :=
  ⟨fun _ => some "python", fun _ => "x = 1\n", fun _ _ => (0, ""),
   fun _ _ => demoErrNode, fun f _ => f, fun _ _ _ _ => "<excerpt>"⟩

/-- A linter whose registry has been emptied, exercising the generic path. -/
def emptyLinter : Linter := ⟨"utf-8", none, []⟩

/-- Induction principle for `Node` (strong induction on `sizeOf`). -/
theorem Node.ind (P : Node → Prop)
    (h : ∀ t m r cs, (∀ c ∈ cs, P c) → P (Node.mk t m r cs)) : ∀ n, P n := by
  have key : ∀ k (n : Node), sizeOf n ≤ k → P n := by
    intro k
    induction k with
    | zero =>
      intro n hn
      cases n with
      | mk t m r cs => simp [Node.mk.sizeOf_spec] at hn
    | succ k ih =>
      intro n hn
      cases n with
      | mk t m r cs =>
        refine h t m r cs (fun c hc => ih c ?_)
        have hlt : sizeOf c < sizeOf cs := List.sizeOf_lt_of_mem hc
        have : sizeOf (Node.mk t m r cs) = 1 + sizeOf t + sizeOf m + sizeOf r + sizeOf cs := by
          simp [Node.mk.sizeOf_spec]
        omega
  exact fun n => key (sizeOf n) n le_rfl

theorem traverse_forest_eq (cs : List Node) :
    traverse_forest cs = cs.flatMap traverse_tree := by
  induction cs with
  | nil => simp [traverse_forest]
  | cons c cs ih => simp [traverse_forest, ih]

theorem allForest_eq (cs : List Node) :
    allForest cs = cs.flatMap allNodes := by
  induction cs with
  | nil => simp [allForest]
  | cons c cs ih => simp [allForest, ih]

/-- Characterization of `traverse_tree`: an entry is exactly a starting row
of some ERROR-typed or missing node anywhere in the tree. -/
theorem traverse_tree_mem (n : Node) (i : Int) :
    i ∈ traverse_tree n ↔
      ∃ m ∈ allNodes n, (m.ty = "ERROR" ∨ m.missing = true) ∧ m.startRow = i := by
  induction n using Node.ind with
  | h t m r cs ih =>
    simp only [traverse_tree, allNodes, traverse_forest_eq, allForest_eq,
      List.mem_append, List.mem_flatMap, List.mem_cons]
    constructor
    · rintro (hhead | ⟨c, hc, hin⟩)
      · by_cases hmatch : t = "ERROR" ∨ m = true
        · refine ⟨Node.mk t m r cs, Or.inl rfl, ?_⟩
          simp only [if_pos hmatch, List.mem_singleton] at hhead
          exact ⟨by simpa [Node.ty, Node.missing] using hmatch,
            by simpa [Node.startRow] using hhead.symm⟩
        · simp [if_neg hmatch] at hhead
      · rcases (ih c hc).1 hin with ⟨w, hw, hprop⟩
        exact ⟨w, Or.inr ⟨c, hc, hw⟩, hprop⟩
    · rintro ⟨w, (rfl | ⟨c, hc, hw⟩), hprop⟩
      · left
        have hmatch : t = "ERROR" ∨ m = true := by
          simpa [Node.ty, Node.missing] using hprop.1
        simp only [if_pos hmatch, List.mem_singleton]
        simpa [Node.startRow] using hprop.2.symm
      · exact Or.inr ⟨c, hc, (ih c hc).2 ⟨w, hw, hprop⟩⟩

/-- Claim C1: `traverse_tree` returns exactly the starting rows of the nodes
whose type tag is "ERROR" or whose missing flag is set, descending into all
children of every node (including children of matching nodes), and the
caller `tree_context` treats the result as a set: rendering is unchanged
under deduplication of the line-number list. -/
theorem traverse_tree_exact (n : Node) (i : Int) :
    (i ∈ traverse_tree n ↔
      ∃ m ∈ allNodes n, (m.ty = "ERROR" ∨ m.missing = true) ∧ m.startRow = i)
    ∧ ∀ (env : Env) (fname code : String),
        tree_context env fname code (traverse_tree n) =
          tree_context env fname code (traverse_tree n).dedup := by
  refine ⟨traverse_tree_mem n i, ?_⟩
  intro env fname code
  simp [tree_context, List.dedup_idem]

/-- Claim C8: when every node's starting row is a valid zero-based line
index and the tree contains at least one ERROR/missing node, the scanner's
result is non-empty and every member lies in `[0, numLines)`. -/
theorem traverse_tree_bounds (n : Node) (numLines : Int)
    (hin : ∀ m ∈ allNodes n, 0 ≤ m.startRow ∧ m.startRow < numLines)
    (herr : ∃ m ∈ allNodes n, m.ty = "ERROR" ∨ m.missing = true) :
    traverse_tree n ≠ [] ∧ ∀ i ∈ traverse_tree n, 0 ≤ i ∧ i < numLines := by
  constructor
  · rcases herr with ⟨m, hm, hprop⟩
    have hmem : m.startRow ∈ traverse_tree n :=
      (traverse_tree_mem n m.startRow).2 ⟨m, hm, hprop, rfl⟩
    intro hnil
    rw [hnil] at hmem
    exact absurd hmem (List.not_mem_nil _)
  · intro i hi
    rcases (traverse_tree_mem n i).1 hi with ⟨m, hm, _, hrow⟩
    exact hrow ▸ hin m hm

/-- Witness for C8 at a one-node ERROR tree with 3 source lines. -/
theorem traverse_tree_bounds_witness :
    ((∀ m ∈ allNodes demoErrNode, 0 ≤ m.startRow ∧ m.startRow < 3)
      ∧ ∃ m ∈ allNodes demoErrNode, m.ty = "ERROR" ∨ m.missing = true)
    ∧ (traverse_tree demoErrNode ≠ []
      ∧ ∀ i ∈ traverse_tree demoErrNode, 0 ≤ i ∧ i < 3) := by
  have hin : ∀ m ∈ allNodes demoErrNode, 0 ≤ m.startRow ∧ m.startRow < 3 := by
    intro m hm
    simp only [demoErrNode, allNodes, allForest, List.mem_singleton] at hm
    subst hm
    exact ⟨by decide, by decide⟩
  have herr : ∃ m ∈ allNodes demoErrNode, m.ty = "ERROR" ∨ m.missing = true := by
    refine ⟨Node.mk "ERROR" false 0 [], ?_, Or.inl rfl⟩
    simp [demoErrNode, allNodes, allForest]
  exact ⟨⟨hin, herr⟩, traverse_tree_bounds demoErrNode 3 hin herr⟩

/-- Claim C7: the compile fallback's captured line numbers are the inclusive
zero-based range from the compiler's starting line to its ending line, and a
single-line report (`start = end`) still yields that one line. -/
theorem compile_line_numbers_spec (lineno end_lineno : Int) (h : lineno ≤ end_lineno) :
    (∀ i : Int, i ∈ compile_line_numbers lineno end_lineno ↔
      lineno - 1 ≤ i ∧ i ≤ end_lineno - 1)
    ∧ (lineno = end_lineno → compile_line_numbers lineno end_lineno = [lineno - 1]) := by
  constructor
  · intro i
    simp only [compile_line_numbers, pyRange, List.mem_map, List.mem_range]
    constructor
    · rintro ⟨k, hk, rfl⟩
      omega
    · rintro ⟨h1, h2⟩
      exact ⟨(i - (lineno - 1)).toNat, by omega, by omega⟩
  · intro he
    subst he
    have h1 : (lineno - (lineno - 1)).toNat = 1 := by omega
    simp [compile_line_numbers, pyRange, h1, List.range_succ]

/-- Witness for C7 at `lineno = 2`, `end_lineno = 4`. -/
theorem compile_line_numbers_spec_witness :
    ((2:Int) ≤ 4)
    ∧ ((∀ i : Int, i ∈ compile_line_numbers 2 4 ↔ 2 - 1 ≤ i ∧ i ≤ 4 - 1)
      ∧ ((2:Int) = 4 → compile_line_numbers 2 4 = [2 - 1])) :=
  ⟨by decide, compile_line_numbers_spec 2 4 (by decide)⟩

theorem pySplitAux_append_space (b : List Char) :
    ∀ (a acc : List Char),
      pySplitAux (a ++ ' ' :: b) acc = pySplitAux a acc ++ pySplitAux b [] := by
  intro a
  induction a with
  | nil =>
    intro acc
    have hw : (' ' : Char).isWhitespace = true := by decide
    by_cases hacc : acc.isEmpty <;> simp [pySplitAux, hw, hacc]
  | cons c cs ih =>
    intro acc
    by_cases hc : c.isWhitespace
    · by_cases hacc : acc.isEmpty <;> simp [pySplitAux, hc, hacc, ih]
    · simp [pySplitAux, hc, ih]

theorem pySplitAux_no_ws (t : List Char) :
    ∀ acc : List Char, (∀ c ∈ t, c.isWhitespace = false) →
      pySplitAux t acc =
        if (acc.reverse ++ t).isEmpty then [] else [acc.reverse ++ t] := by
  induction t with
  | nil =>
    intro acc _
    cases acc <;> simp [pySplitAux]
  | cons c cs ih =>
    intro acc h
    have hc : c.isWhitespace = false := h c (List.mem_cons_self c cs)
    have hcs : ∀ x ∈ cs, x.isWhitespace = false := fun x hx => h x (List.mem_cons_of_mem c hx)
    simp only [pySplitAux, hc, Bool.false_eq_true, if_false]
    rw [ih (c :: acc) hcs]
    simp [List.reverse_cons, List.append_assoc]

theorem pySplit_token (t : List Char) (hne : t ≠ []) (h : ∀ c ∈ t, c.isWhitespace = false) :
    pySplit t = [t] := by
  rw [pySplit, pySplitAux_no_ws t [] h]
  cases t with
  | nil => exact absurd rfl hne
  | cons c cs => simp

/-- Claim C10: `run_cmd` builds the argument vector by appending a space and
the relative file name to the template and splitting the whole string on
whitespace, so the vector is the template's tokens followed by the file
name's tokens; a file name made of two whitespace-free tokens around a space
reaches the subprocess as two separate arguments. -/
theorem run_cmd_argv_spec (cmd rel_fname : List Char) :
    run_cmd_argv cmd rel_fname = pySplit cmd ++ pySplit rel_fname
    ∧ (∀ t₁ t₂ : List Char, t₁ ≠ [] → t₂ ≠ [] →
        (∀ c ∈ t₁, c.isWhitespace = false) → (∀ c ∈ t₂, c.isWhitespace = false) →
        rel_fname = t₁ ++ ' ' :: t₂ →
        run_cmd_argv cmd rel_fname = pySplit cmd ++ [t₁, t₂]) := by
  have hmain : run_cmd_argv cmd rel_fname = pySplit cmd ++ pySplit rel_fname := by
    unfold run_cmd_argv pySplit
    exact pySplitAux_append_space rel_fname cmd []
  refine ⟨hmain, ?_⟩
  rintro t₁ t₂ h1 h2 hw1 hw2 rfl
  rw [hmain]
  have hsplit : pySplit (t₁ ++ ' ' :: t₂) = pySplit t₁ ++ pySplit t₂ :=
    pySplitAux_append_space t₂ t₁ []
  rw [hsplit, pySplit_token t₁ h1 hw1, pySplit_token t₂ h2 hw2]
  rfl

/-- Witness for C10: `"lint" + " " + "my file.py"` splits the file name into
two arguments. -/
theorem run_cmd_argv_spec_witness :
    run_cmd_argv "lint".data "my file.py".data = pySplit "lint".data ++ ["my".data, "file.py".data] :=
  (run_cmd_argv_spec "lint".data "my file.py".data).2 "my".data "file.py".data
    (by decide) (by decide) (by decide) (by decide) (by decide)

/-- Claim C2: on the external-command path of `lint`, a zero exit status
returns nothing and a non-zero exit status returns the captured output
prefixed by the instructional header — a `#`-prefixed comment block that
contains no marked-line rendering (no `█` marker). -/
theorem lint_external_cmd_exit (env : Env) (l : Linter) (fname lang cmd out : String)
    (ecode : Int)
    (hlang : env.filename_to_lang fname = some lang)
    (hcmd : lookupLang l.languages lang = some (Handler.external cmd))
    (hne : cmd ≠ "")
    (hexec : env.exec l.root (run_cmd_argv cmd.data (Linter.get_rel_fname env l fname).data)
      = (ecode, out)) :
    Linter.lint env l fname = (if ecode = 0 then none else some (runCmdHeader ++ out))
    ∧ runCmdHeader.data.head? = some '#'
    ∧ ∀ c ∈ runCmdHeader.data, c ≠ '█' := by
  refine ⟨?_, by decide, by decide⟩
  simp only [Linter.lint, hlang, hcmd, if_neg hne, Linter.run_cmd, hexec]

/-- Witness for C2: the default registry's python command exiting 1 with
output "boom". -/
theorem lint_external_cmd_exit_witness :
    (demoEnv.filename_to_lang "a.py" = some "python"
      ∧ lookupLang defaultLinter.languages "python"
          = some (Handler.external "pre-commit run --files")
      ∧ "pre-commit run --files" ≠ ""
      ∧ demoEnv.exec defaultLinter.root
          (run_cmd_argv "pre-commit run --files".data
            (Linter.get_rel_fname demoEnv defaultLinter "a.py").data) = (1, "boom"))
    ∧ (Linter.lint demoEnv defaultLinter "a.py"
        = (if (1:Int) = 0 then none else some (runCmdHeader ++ "boom"))
      ∧ runCmdHeader.data.head? = some '#'
      ∧ ∀ c ∈ runCmdHeader.data, c ≠ '█') :=
  ⟨⟨rfl, rfl, by decide, rfl⟩,
    lint_external_cmd_exit demoEnv defaultLinter "a.py" "python" "pre-commit run --files"
      "boom" 1 rfl rfl (by decide) rfl⟩

/-- Claim C4: `py_lint` runs `basic_lint` first and returns its report
unchanged when it is non-empty, regardless of what the compile step would
do; only when `basic_lint` finds nothing does it invoke
`lint_python_compile`. -/
theorem py_lint_order (env : Env) (compile_result : Option PyExn)
    (fname rel_fname code r : String) :
    (basic_lint env rel_fname code = some r → r ≠ "" →
      Linter.py_lint env compile_result fname rel_fname code = Except.ok (some r))
    ∧ (basic_lint env rel_fname code = none →
      Linter.py_lint env compile_result fname rel_fname code
        = lint_python_compile env compile_result fname code) := by
  constructor
  · intro hb hr
    simp [Linter.py_lint, hb, pyTruthy, hr]
  · intro hb
    simp [Linter.py_lint, hb, pyTruthy]

/-- Witness for C4: an erroring parse makes `py_lint` return `basic_lint`'s
report; a clean parse makes it fall through to the compile step. -/
theorem py_lint_order_witness :
    (basic_lint demoErrEnv "f.py" "x" = some (tree_context demoErrEnv "f.py" "x" [0])
      ∧ tree_context demoErrEnv "f.py" "x" [0] ≠ ""
      ∧ Linter.py_lint demoErrEnv none "f.py" "f.py" "x"
          = Except.ok (some (tree_context demoErrEnv "f.py" "x" [0])))
    ∧ (basic_lint demoEnv "f.py" "x" = none
      ∧ Linter.py_lint demoEnv none "f.py" "f.py" "x"
          = lint_python_compile demoEnv none "f.py" "x") := by
  have hb : basic_lint demoErrEnv "f.py" "x" = some (tree_context demoErrEnv "f.py" "x" [0]) := by
    simp [basic_lint, demoErrEnv, demoErrNode, traverse_tree, traverse_forest]
  have hr : tree_context demoErrEnv "f.py" "x" [0] ≠ "" := by decide
  have hb2 : basic_lint demoEnv "f.py" "x" = none := by
    simp [basic_lint, demoEnv, demoNode, traverse_tree, traverse_forest]
  exact ⟨⟨hb, hr, (py_lint_order demoErrEnv none "f.py" "f.py" "x" _).1 hb hr⟩,
    ⟨hb2, (py_lint_order demoEnv none "f.py" "f.py" "x" "").2 hb2⟩⟩

/-- Claim C5: for a non-empty line set, `tree_context` emits the singular
instructional header when the deduplicated set has exactly one line and the
plural one when it has more, followed by the file's relative path with a
colon and the configured renderer's excerpt; whenever the renderer marks
every line of interest it is handed (property `P`, guaranteed by its
`mark_lois` option, which `tree_context` sets), every line of interest is
marked in the emitted excerpt. -/
theorem tree_context_shape (env : Env) (fname code : String) (line_nums : List Int)
    (P : Int → String → Prop)
    (hne : line_nums ≠ [])
    (hfmt : treeContextCfg.mark_lois = true →
      ∀ i ∈ line_nums.dedup, P i (env.tc_format treeContextCfg fname code line_nums.dedup)) :
    (line_nums.dedup.length = 1 →
      tree_context env fname code line_nums =
        "# Fix the error, see relevant line below marked with █.\n\n"
          ++ (fname ++ ":\n") ++ env.tc_format treeContextCfg fname code line_nums.dedup)
    ∧ (1 < line_nums.dedup.length →
      tree_context env fname code line_nums =
        "# Fix the errors, see relevant lines below marked with █.\n\n"
          ++ (fname ++ ":\n") ++ env.tc_format treeContextCfg fname code line_nums.dedup)
    ∧ ∀ i ∈ line_nums.dedup, P i (env.tc_format treeContextCfg fname code line_nums.dedup) := by
  refine ⟨?_, ?_, hfmt rfl⟩
  · intro h1
    have hlen : ¬ (1 < line_nums.dedup.length) := by omega
    simp only [tree_context, if_neg hlen]
    have hs : ("# Fix the error" ++ "" ++ ", see relevant line" ++ "" ++ " below marked with █.\n\n")
        = "# Fix the error, see relevant line below marked with █.\n\n" := by decide
    rw [hs]
  · intro h2
    simp only [tree_context, if_pos h2]
    have hs : ("# Fix the error" ++ "s" ++ ", see relevant line" ++ "s" ++ " below marked with █.\n\n")
        = "# Fix the errors, see relevant lines below marked with █.\n\n" := by decide
    rw [hs]

/-- Witness for C5 at the singleton line set `[3]`. -/
theorem tree_context_shape_witness :
    ([(3:Int)] ≠ []
      ∧ (treeContextCfg.mark_lois = true →
          ∀ i ∈ [(3:Int)].dedup,
            demoEnv.tc_format treeContextCfg "f.py" "x" [(3:Int)].dedup = "<excerpt>"))
    ∧ (([(3:Int)].dedup.length = 1 →
        tree_context demoEnv "f.py" "x" [3] =
          "# Fix the error, see relevant line below marked with █.\n\n"
            ++ ("f.py" ++ ":\n") ++ demoEnv.tc_format treeContextCfg "f.py" "x" [(3:Int)].dedup)
      ∧ (1 < [(3:Int)].dedup.length →
        tree_context demoEnv "f.py" "x" [3] =
          "# Fix the errors, see relevant lines below marked with █.\n\n"
            ++ ("f.py" ++ ":\n") ++ demoEnv.tc_format treeContextCfg "f.py" "x" [(3:Int)].dedup)
      ∧ ∀ i ∈ [(3:Int)].dedup,
          demoEnv.tc_format treeContextCfg "f.py" "x" [(3:Int)].dedup = "<excerpt>") :=
  ⟨⟨by decide, fun _ i _ => rfl⟩,
    tree_context_shape demoEnv "f.py" "x" [3] (fun _ s2 => s2 = "<excerpt>")
      (by decide) (fun _ i _ => rfl)⟩

/-- Claim C6: when the resolved language has no registered handler and the
parse tree of the file's code contains no ERROR-typed and no missing node,
the scanner returns the empty list and `lint` returns nothing. -/
theorem lint_generic_clean (env : Env) (l : Linter) (fname lang lang2 : String)
    (hlang : env.filename_to_lang fname = some lang)
    (hreg : lookupLang l.languages lang = none)
    (hlang2 : env.filename_to_lang (Linter.get_rel_fname env l fname) = some lang2)
    (hclean : ∀ m ∈ allNodes (env.parse lang2 (env.read_text fname)),
      m.ty ≠ "ERROR" ∧ m.missing = false) :
    traverse_tree (env.parse lang2 (env.read_text fname)) = []
    ∧ Linter.lint env l fname = none := by
  have hempty : traverse_tree (env.parse lang2 (env.read_text fname)) = [] := by
    rw [List.eq_nil_iff_forall_not_mem]
    intro i hi
    rcases (traverse_tree_mem _ i).1 hi with ⟨m, hm, hprop, _⟩
    rcases hclean m hm with ⟨hty, hmiss⟩
    rcases hprop with h | h
    · exact hty h
    · rw [hmiss] at h
      exact Bool.false_ne_true h
  refine ⟨hempty, ?_⟩
  simp only [Linter.lint, hlang, hreg, basic_lint, hlang2, hempty]
  simp

/-- Witness for C6: an error-free parse with an empty registry. -/
theorem lint_generic_clean_witness :
    (demoEnv.filename_to_lang "a.py" = some "python"
      ∧ lookupLang emptyLinter.languages "python" = none
      ∧ demoEnv.filename_to_lang (Linter.get_rel_fname demoEnv emptyLinter "a.py") = some "python"
      ∧ ∀ m ∈ allNodes (demoEnv.parse "python" (demoEnv.read_text "a.py")),
          m.ty ≠ "ERROR" ∧ m.missing = false)
    ∧ (traverse_tree (demoEnv.parse "python" (demoEnv.read_text "a.py")) = []
      ∧ Linter.lint demoEnv emptyLinter "a.py" = none) := by
  have hclean : ∀ m ∈ allNodes (demoEnv.parse "python" (demoEnv.read_text "a.py")),
      m.ty ≠ "ERROR" ∧ m.missing = false := by
    intro m hm
    simp only [demoEnv, demoNode, allNodes, allForest, List.mem_singleton] at hm
    subst hm
    exact ⟨by decide, rfl⟩
  exact ⟨⟨rfl, rfl, rfl, hclean⟩,
    lint_generic_clean demoEnv emptyLinter "a.py" "python" "python" rfl rfl rfl hclean⟩

/-- Claim C9: the default-constructed `Linter`'s registry is exactly the one
entry mapping "python" to the external command "pre-commit run --files", so
`lint` on a python file takes the external-command path (`run_cmd`), whose
result does not involve the compile fallback at all. -/
theorem default_registry_python (env : Env) (fname : String)
    (hlang : env.filename_to_lang fname = some "python") :
    defaultLinter.languages = [("python", Handler.external "pre-commit run --files")]
    ∧ Linter.lint env defaultLinter fname
        = Linter.run_cmd env defaultLinter "pre-commit run --files"
            (Linter.get_rel_fname env defaultLinter fname) := by
  refine ⟨rfl, ?_⟩
  have hcmd : lookupLang defaultLinter.languages "python"
      = some (Handler.external "pre-commit run --files") := rfl
  have hne : ¬ ("pre-commit run --files" = "") := by decide
  simp only [Linter.lint, hlang, hcmd, if_neg hne]

/-- Witness for C9. -/
theorem default_registry_python_witness :
    demoEnv.filename_to_lang "a.py" = some "python"
    ∧ (defaultLinter.languages = [("python", Handler.external "pre-commit run --files")]
      ∧ Linter.lint demoEnv defaultLinter "a.py"
          = Linter.run_cmd demoEnv defaultLinter "pre-commit run --files"
              (Linter.get_rel_fname demoEnv defaultLinter "a.py")) :=
  ⟨rfl, default_registry_python demoEnv "a.py" rfl⟩

/-- Claim C3 (failing case of the code): when the compile step raises an
exception carrying no `lineno`/`end_lineno` attributes — e.g. the
`ValueError` raised for a source string containing a null byte — the
attribute access inside the handler of `lint_python_compile` raises in turn,
and the fault propagates to the caller instead of being converted to a
report string. -/
theorem lint_python_compile_fault :
    lint_python_compile demoEnv (some ⟨none, none, []⟩) "f.py" "\x00"
      = Except.error PyFault.raised := rfl

end Aider
